import Mathlib

/-!
Shallow embedding of `src/index.ts` of the xinz-port-scanner repository.

The program has four parts that the claims concern:
* two regular expressions, `REGEXP_IP` and `REGEXP_PORT_RANGE`, with the
  boolean validators `isIpCheck` and `isPortRangeCheck` (`.test` on an
  anchored JS regex is full-string membership, which we model with a
  Brzozowski-derivative matcher over an explicit regex AST);
* the per-port prober `scanPort`, a promise that resolves `port` on the
  socket `connect` event and `null` on `timeout`/`error`, and never rejects
  (modelled as a function from the socket event to `Except`);
* the orchestrator `scanPorts`, a sequential ascending `for` loop that
  ticks a progress bar once per iteration and records a port when the
  awaited probe result is non-null and truthy;
* `main`, which validates the IP (resolving a hostname first when the
  input is not a literal IPv4), asserts both validations, parses the
  port range and runs the scan (modelled as a trace of network events
  plus a process exit code).
-/

/-! ### A small regex engine (Brzozowski derivatives)

The JS regex features used by the source are: character literals,
character classes, alternation, option (`?`), one-or-more (`+`) and
concatenation, anchored on both sides.  `RE.matchList` decides anchored
(full-string) membership, which is what `RegExp.test` computes for a
`^...$` pattern. -/

inductive RE where
  | emp : RE
  | eps : RE
  | cls : (Char → Bool) → RE
  | seq : RE → RE → RE
  | alt : RE → RE → RE
  | star : RE → RE

def RE.nullable : RE → Bool
  | .emp => false
  | .eps => true
  | .cls _ => false
  | .seq a b => a.nullable && b.nullable
  | .alt a b => a.nullable || b.nullable
  | .star _ => true

def RE.deriv : RE → Char → RE
  | .emp, _ => .emp
  | .eps, _ => .emp
  | .cls p, c => if p c then .eps else .emp
  | .seq a b, c =>
      if a.nullable then .alt (.seq (a.deriv c) b) (b.deriv c)
      else .seq (a.deriv c) b
  | .alt a b, c => .alt (a.deriv c) (b.deriv c)
  | .star a, c => .seq (a.deriv c) (.star a)

def RE.matchList (r : RE) : List Char → Bool
  | [] => r.nullable
  | c :: cs => (r.deriv c).matchList cs

/-- Language membership, as an inductive predicate. -/
inductive RE.Matches : RE → List Char → Prop
  | eps : RE.Matches .eps []
  | cls {p : Char → Bool} {c : Char} : p c = true → RE.Matches (.cls p) [c]
  | seq {a b : RE} {u v : List Char} :
      RE.Matches a u → RE.Matches b v → RE.Matches (.seq a b) (u ++ v)
  | altL {a b : RE} {s : List Char} : RE.Matches a s → RE.Matches (.alt a b) s
  | altR {a b : RE} {s : List Char} : RE.Matches b s → RE.Matches (.alt a b) s
  | starNil {a : RE} : RE.Matches (.star a) []
  | starCons {a : RE} {u v : List Char} :
      RE.Matches a u → RE.Matches (.star a) v → RE.Matches (.star a) (u ++ v)

theorem RE.Matches.emp_inv {s : List Char} (h : RE.Matches .emp s) : False := by
  cases h

theorem RE.Matches.eps_inv {s : List Char} (h : RE.Matches .eps s) : s = [] := by
  cases h; rfl

theorem RE.Matches.cls_inv {p : Char → Bool} {s : List Char}
    (h : RE.Matches (.cls p) s) : ∃ c, s = [c] ∧ p c = true := by
  cases h with
  | cls hp => exact ⟨_, rfl, hp⟩

theorem RE.Matches.seq_inv {a b : RE} {s : List Char}
    (h : RE.Matches (.seq a b) s) :
    ∃ u v, s = u ++ v ∧ RE.Matches a u ∧ RE.Matches b v := by
  cases h with
  | seq hu hv => exact ⟨_, _, rfl, hu, hv⟩

theorem RE.Matches.alt_inv {a b : RE} {s : List Char}
    (h : RE.Matches (.alt a b) s) : RE.Matches a s ∨ RE.Matches b s := by
  cases h with
  | altL h => exact Or.inl h
  | altR h => exact Or.inr h

theorem RE.nullable_iff (r : RE) : r.nullable = true ↔ RE.Matches r [] := by
  induction r with
  | emp =>
    constructor
    · intro h; simp [RE.nullable] at h
    · intro h; exact h.emp_inv.elim
  | eps =>
    constructor
    · intro _; exact .eps
    · intro _; rfl
  | cls p =>
    simp only [RE.nullable]
    constructor
    · intro h; cases h
    · intro h
      rcases h.cls_inv with ⟨c, hc, _⟩
      cases hc
  | seq a b iha ihb =>
    simp only [RE.nullable, Bool.and_eq_true]
    constructor
    · rintro ⟨ha, hb⟩
      exact List.nil_append ([] : List Char) ▸
        RE.Matches.seq (iha.mp ha) (ihb.mp hb)
    · intro h
      rcases h.seq_inv with ⟨u, v, huv, hu, hv⟩
      rcases List.append_eq_nil.mp huv.symm with ⟨hu0, hv0⟩
      subst hu0; subst hv0
      exact ⟨iha.mpr hu, ihb.mpr hv⟩
  | alt a b iha ihb =>
    simp only [RE.nullable, Bool.or_eq_true]
    constructor
    · rintro (ha | hb)
      · exact .altL (iha.mp ha)
      · exact .altR (ihb.mp hb)
    · intro h
      rcases h.alt_inv with h | h
      · exact Or.inl (iha.mpr h)
      · exact Or.inr (ihb.mpr h)
  | star a iha =>
    constructor
    · intro _; exact .starNil
    · intro _; rfl

/-- Inversion for `star` at a nonempty word: the first chunk can be taken
nonempty. -/
theorem RE.Matches.star_ne_inv {r : RE} {s : List Char} (h : RE.Matches r s) :
    ∀ a : RE, r = .star a → s = [] ∨
      ∃ u v, s = u ++ v ∧ u ≠ [] ∧ RE.Matches a u ∧ RE.Matches (.star a) v := by
  induction h with
  | eps => intro a heq; cases heq
  | cls _ => intro a heq; cases heq
  | seq _ _ _ _ => intro a heq; cases heq
  | altL _ _ => intro a heq; cases heq
  | altR _ _ => intro a heq; cases heq
  | starNil => intro a heq; exact Or.inl rfl
  | starCons hu hv ihu ihv =>
    intro a heq
    injection heq with heq'
    subst heq'
    rename_i u v
    by_cases hu0 : u = []
    · subst hu0
      simpa using ihv _ rfl
    · exact Or.inr ⟨u, v, rfl, hu0, hu, hv⟩

theorem RE.deriv_iff (r : RE) (c : Char) (s : List Char) :
    RE.Matches (r.deriv c) s ↔ RE.Matches r (c :: s) := by
  induction r generalizing s with
  | emp =>
    simp only [RE.deriv]
    exact ⟨fun h => h.emp_inv.elim, fun h => h.emp_inv.elim⟩
  | eps =>
    simp only [RE.deriv]
    constructor
    · intro h; exact h.emp_inv.elim
    · intro h; cases h.eps_inv
  | cls p =>
    simp only [RE.deriv]
    by_cases hp : p c = true
    · rw [if_pos hp]
      constructor
      · intro h; rw [h.eps_inv]; exact .cls hp
      · intro h
        rcases h.cls_inv with ⟨c', hc, _⟩
        injection hc with h1 h2
        rw [h2]; exact .eps
    · rw [if_neg hp]
      constructor
      · intro h; exact h.emp_inv.elim
      · intro h
        rcases h.cls_inv with ⟨c', hc, hpc⟩
        injection hc with h1 h2
        subst h1
        exact absurd hpc hp
  | seq a b iha ihb =>
    constructor
    · intro h
      simp only [RE.deriv] at h
      by_cases hn : a.nullable = true
      · rw [if_pos hn] at h
        rcases h.alt_inv with h | h
        · rcases h.seq_inv with ⟨u, v, huv, hu, hv⟩
          subst huv
          exact List.cons_append c u v ▸
            RE.Matches.seq ((iha u).mp hu) hv
        · exact List.nil_append (c :: s) ▸
            RE.Matches.seq ((RE.nullable_iff a).mp hn) ((ihb s).mp h)
      · rw [if_neg hn] at h
        rcases h.seq_inv with ⟨u, v, huv, hu, hv⟩
        subst huv
        exact List.cons_append c u v ▸
          RE.Matches.seq ((iha u).mp hu) hv
    · intro h
      simp only [RE.deriv]
      rcases h.seq_inv with ⟨u, v, huv, hu, hv⟩
      cases u with
      | nil =>
        have hn : a.nullable = true := (RE.nullable_iff a).mpr hu
        rw [if_pos hn]
        apply RE.Matches.altR
        apply (ihb s).mpr
        simp only [List.nil_append] at huv
        rw [huv]
        exact hv
      | cons c' u' =>
        rw [List.cons_append] at huv
        injection huv with h1 h2
        subst h1
        subst h2
        have hstep : RE.Matches (RE.seq (a.deriv c) b) (u' ++ v) :=
          RE.Matches.seq ((iha u').mpr hu) hv
        by_cases hn : a.nullable = true
        · rw [if_pos hn]; exact .altL hstep
        · rw [if_neg hn]; exact hstep
  | alt a b iha ihb =>
    simp only [RE.deriv]
    constructor
    · intro h
      rcases h.alt_inv with h | h
      · exact .altL ((iha s).mp h)
      · exact .altR ((ihb s).mp h)
    · intro h
      rcases h.alt_inv with h | h
      · exact .altL ((iha s).mpr h)
      · exact .altR ((ihb s).mpr h)
  | star a iha =>
    simp only [RE.deriv]
    constructor
    · intro h
      rcases h.seq_inv with ⟨u, v, huv, hu, hv⟩
      subst huv
      exact List.cons_append c u v ▸
        RE.Matches.starCons ((iha u).mp hu) hv
    · intro h
      rcases h.star_ne_inv a rfl with h0 | ⟨u, v, huv, hne, hu, hv⟩
      · cases h0
      · cases u with
        | nil => exact absurd rfl hne
        | cons c' u' =>
          rw [List.cons_append] at huv
          injection huv with h1 h2
          subst h1
          subst h2
          exact RE.Matches.seq ((iha u').mpr hu) hv

/-- The derivative matcher decides language membership. -/
theorem RE.matchList_iff (r : RE) (s : List Char) :
    r.matchList s = true ↔ RE.Matches r s := by
  induction s generalizing r with
  | nil => exact RE.nullable_iff r
  | cons c cs ih =>
    simp only [RE.matchList]
    exact (ih (r.deriv c)).trans (RE.deriv_iff r c cs)

/-! ### The two regexes of the source

```
const REGEXP_IP = /^(25[0-5]|2[0-4][0-9]|[01]?[0-9][0-9]?)\.(...)\.(...)\.(...)$/;
const REGEXP_PORT_RANGE = /^(\d+)-(\d+)$/;
```

Character classes are written by code point: `'0'` = 48, `'1'` = 49,
`'2'` = 50, `'4'` = 52, `'5'` = 53, `'9'` = 57. -/

/-- Class of a single literal character (`2`, `5`, `.`, `-` in the source). -/
def RE.chr (c : Char) : RE := .cls (fun d => d == c)

/-- A contiguous character range class such as `[0-9]`, by code points. -/
def RE.rng (lo hi : Nat) : RE :=
  .cls (fun c => decide (lo ≤ c.toNat) && decide (c.toNat ≤ hi))

/-- `r?` -/
def RE.opt (r : RE) : RE := .alt .eps r

/-- `r+` -/
def RE.plus (r : RE) : RE := .seq r (.star r)

/-- `\d` = `[0-9]` -/
def digitCls : RE := RE.rng 48 57

/-- One octet alternative of `REGEXP_IP`:
`25[0-5]|2[0-4][0-9]|[01]?[0-9][0-9]?`. -/
def octetRE : RE :=
  .alt (.seq (RE.chr '2') (.seq (RE.chr '5') (RE.rng 48 53)))
    (.alt (.seq (RE.chr '2') (.seq (RE.rng 48 52) digitCls))
      (.seq (RE.opt (RE.rng 48 49)) (.seq digitCls (RE.opt digitCls))))

/-- `REGEXP_IP` without the anchors (the anchors are what makes `.test`
full-string membership, which `RE.matchList` decides). -/
def REGEXP_IP : RE :=
  .seq octetRE (.seq (RE.chr '.')
    (.seq octetRE (.seq (RE.chr '.')
      (.seq octetRE (.seq (RE.chr '.') octetRE)))))

/-- `REGEXP_PORT_RANGE` = `^(\d+)-(\d+)$`. -/
def REGEXP_PORT_RANGE : RE :=
  .seq (RE.plus digitCls) (.seq (RE.chr '-') (RE.plus digitCls))

/-- `function isIpCheck(host) { return REGEXP_IP.test(host); }` -/
def isIpCheck (host : String) : Bool := REGEXP_IP.matchList host.data

/-- `function isPortRangeCheck(portRange) { return REGEXP_PORT_RANGE.test(portRange); }` -/
def isPortRangeCheck (portRange : String) : Bool :=
  REGEXP_PORT_RANGE.matchList portRange.data

/-! ### Characterizing the languages of the two regexes -/

/-- Membership in the class `[0-9]` (code points 48–57). -/
def isDigitCh (c : Char) : Bool := decide (48 ≤ c.toNat) && decide (c.toNat ≤ 57)

/-- Numeric value of a decimal-digit string, as JS `Number` computes it on
such a string (used by `portrange.split('-').map(Number)` in `main`). -/
def digitsToNat (l : List Char) : Nat :=
  l.foldl (fun n c => 10 * n + (c.toNat - 48)) 0

theorem RE.Matches.chr_iff {c : Char} {s : List Char} :
    RE.Matches (RE.chr c) s ↔ s = [c] := by
  constructor
  · intro h
    rcases h.cls_inv with ⟨c', rfl, hc⟩
    simp only [beq_iff_eq] at hc
    rw [hc]
  · rintro rfl
    exact .cls (by simp)

theorem RE.Matches.rng_iff {lo hi : Nat} {s : List Char} :
    RE.Matches (RE.rng lo hi) s ↔
      ∃ c, s = [c] ∧ lo ≤ c.toNat ∧ c.toNat ≤ hi := by
  constructor
  · intro h
    rcases h.cls_inv with ⟨c, rfl, hc⟩
    simp only [Bool.and_eq_true, decide_eq_true_eq] at hc
    exact ⟨c, rfl, hc⟩
  · rintro ⟨c, rfl, h1, h2⟩
    exact .cls (by simp [h1, h2])

theorem RE.Matches.opt_iff {r : RE} {s : List Char} :
    RE.Matches (RE.opt r) s ↔ s = [] ∨ RE.Matches r s := by
  constructor
  · intro h
    rcases h.alt_inv with h | h
    · exact Or.inl h.eps_inv
    · exact Or.inr h
  · rintro (rfl | h)
    · exact .altL .eps
    · exact .altR h

theorem RE.Matches.seq_iff {a b : RE} {s : List Char} :
    RE.Matches (.seq a b) s ↔
      ∃ u v, s = u ++ v ∧ RE.Matches a u ∧ RE.Matches b v := by
  constructor
  · exact RE.Matches.seq_inv
  · rintro ⟨u, v, rfl, hu, hv⟩
    exact .seq hu hv

theorem RE.Matches.star_cls_all {r : RE} {s : List Char} (h : RE.Matches r s) :
    ∀ p : Char → Bool, r = .star (.cls p) → ∀ c ∈ s, p c = true := by
  induction h with
  | eps => intro p heq; cases heq
  | cls _ => intro p heq; cases heq
  | seq _ _ _ _ => intro p heq; cases heq
  | altL _ _ => intro p heq; cases heq
  | altR _ _ => intro p heq; cases heq
  | starNil => intro p heq c hc; simp at hc
  | starCons hu hv ihu ihv =>
    intro p heq c hc
    injection heq with heq'
    subst heq'
    rcases hu.cls_inv with ⟨c', rfl, hc'⟩
    rcases List.mem_append.mp hc with h | h
    · rw [List.mem_singleton.mp h]; exact hc'
    · exact ihv p rfl c h

theorem RE.Matches.star_cls_of_all {p : Char → Bool} {s : List Char}
    (h : ∀ c ∈ s, p c = true) : RE.Matches (.star (.cls p)) s := by
  induction s with
  | nil => exact .starNil
  | cons c cs ih =>
    have : RE.Matches (.star (.cls p)) ([c] ++ cs) :=
      .starCons (.cls (h c (by simp))) (ih (fun c' hc' => h c' (by simp [hc'])))
    simpa using this

/-- One-or-more of a character class matches exactly the nonempty strings
all of whose characters are in the class. -/
theorem RE.Matches.plus_cls_iff {p : Char → Bool} {s : List Char} :
    RE.Matches (RE.plus (.cls p)) s ↔ s ≠ [] ∧ ∀ c ∈ s, p c = true := by
  constructor
  · intro h
    rcases h.seq_inv with ⟨u, v, rfl, hu, hv⟩
    rcases hu.cls_inv with ⟨c, rfl, hc⟩
    refine ⟨by simp, ?_⟩
    intro c' hc'
    rcases List.mem_append.mp hc' with h | h
    · rw [List.mem_singleton.mp h]; exact hc
    · exact hv.star_cls_all p rfl c' h
  · rintro ⟨hne, hall⟩
    cases s with
    | nil => exact absurd rfl hne
    | cons c cs =>
      have : RE.Matches (RE.plus (.cls p)) ([c] ++ cs) :=
        .seq (.cls (hall c (by simp)))
          (RE.Matches.star_cls_of_all (fun c' hc' => hall c' (by simp [hc'])))
      simpa using this

theorem digitsToNat_one (a : Char) : digitsToNat [a] = a.toNat - 48 := by
  simp [digitsToNat]

theorem digitsToNat_two (a b : Char) :
    digitsToNat [a, b] = 10 * (a.toNat - 48) + (b.toNat - 48) := by
  simp [digitsToNat]

theorem digitsToNat_three (a b c : Char) :
    digitsToNat [a, b, c] =
      100 * (a.toNat - 48) + 10 * (b.toNat - 48) + (c.toNat - 48) := by
  simp [digitsToNat]
  omega

/-- The strings accepted by one octet group of `REGEXP_IP`: one to three
decimal digits whose value is at most 255 (leading zeros allowed). -/
def GoodOctet (g : List Char) : Prop :=
  g ≠ [] ∧ g.length ≤ 3 ∧ (∀ c ∈ g, isDigitCh c = true) ∧ digitsToNat g ≤ 255

theorem octetRE_iff {g : List Char} : RE.Matches octetRE g ↔ GoodOctet g := by
  constructor
  · intro h
    rcases h.alt_inv with h | h
    · -- 25[0-5]
      rcases h.seq_inv with ⟨u1, v1, rfl, h1, h23⟩
      rcases h23.seq_inv with ⟨u2, u3, rfl, h2, h3⟩
      rw [RE.Matches.chr_iff] at h1
      rw [RE.Matches.chr_iff] at h2
      rcases RE.Matches.rng_iff.mp h3 with ⟨c, rfl, hc1, hc2⟩
      subst h1; subst h2
      have h2v : ('2').toNat = 50 := by decide
      have h5v : ('5').toNat = 53 := by decide
      refine ⟨by simp, by simp, ?_, ?_⟩
      · intro x hx
        simp at hx
        rcases hx with rfl | rfl | rfl
        · decide
        · decide
        · simp only [isDigitCh, Bool.and_eq_true, decide_eq_true_eq]
          omega
      · show digitsToNat ['2', '5', c] ≤ 255
        rw [digitsToNat_three, h2v, h5v]
        omega
    rcases h.alt_inv with h | h
    · -- 2[0-4][0-9]
      rcases h.seq_inv with ⟨u1, v1, rfl, h1, h23⟩
      rcases h23.seq_inv with ⟨u2, u3, rfl, h2, h3⟩
      rw [RE.Matches.chr_iff] at h1
      rcases RE.Matches.rng_iff.mp h2 with ⟨b, rfl, hb1, hb2⟩
      rcases RE.Matches.rng_iff.mp h3 with ⟨c, rfl, hc1, hc2⟩
      subst h1
      have h2v : ('2').toNat = 50 := by decide
      refine ⟨by simp, by simp, ?_, ?_⟩
      · intro x hx
        simp at hx
        rcases hx with rfl | rfl | rfl
        · decide
        · simp only [isDigitCh, Bool.and_eq_true, decide_eq_true_eq]; omega
        · simp only [isDigitCh, Bool.and_eq_true, decide_eq_true_eq]; omega
      · show digitsToNat ['2', b, c] ≤ 255
        rw [digitsToNat_three, h2v]
        omega
    · -- [01]?[0-9][0-9]?
      rcases h.seq_inv with ⟨u1, v1, rfl, h1, h23⟩
      rcases h23.seq_inv with ⟨u2, u3, rfl, h2, h3⟩
      rcases RE.Matches.rng_iff.mp h2 with ⟨b, rfl, hb1, hb2⟩
      rcases RE.Matches.opt_iff.mp h1 with rfl | h1
      · rcases RE.Matches.opt_iff.mp h3 with rfl | h3
        · -- single digit
          refine ⟨by simp, by simp, ?_, ?_⟩
          · intro x hx
            simp at hx
            subst hx
            simp only [isDigitCh, Bool.and_eq_true, decide_eq_true_eq]; omega
          · show digitsToNat [b] ≤ 255
            rw [digitsToNat_one]; omega
        · rcases RE.Matches.rng_iff.mp h3 with ⟨c, rfl, hc1, hc2⟩
          refine ⟨by simp, by simp, ?_, ?_⟩
          · intro x hx
            simp at hx
            rcases hx with rfl | rfl
            · simp only [isDigitCh, Bool.and_eq_true, decide_eq_true_eq]; omega
            · simp only [isDigitCh, Bool.and_eq_true, decide_eq_true_eq]; omega
          · show digitsToNat [b, c] ≤ 255
            rw [digitsToNat_two]; omega
      · rcases RE.Matches.rng_iff.mp h1 with ⟨a, rfl, ha1, ha2⟩
        rcases RE.Matches.opt_iff.mp h3 with rfl | h3
        · refine ⟨by simp, by simp, ?_, ?_⟩
          · intro x hx
            simp at hx
            rcases hx with rfl | rfl
            · simp only [isDigitCh, Bool.and_eq_true, decide_eq_true_eq]; omega
            · simp only [isDigitCh, Bool.and_eq_true, decide_eq_true_eq]; omega
          · show digitsToNat [a, b] ≤ 255
            rw [digitsToNat_two]; omega
        · rcases RE.Matches.rng_iff.mp h3 with ⟨c, rfl, hc1, hc2⟩
          refine ⟨by simp, by simp, ?_, ?_⟩
          · intro x hx
            simp at hx
            rcases hx with rfl | rfl | rfl
            · simp only [isDigitCh, Bool.and_eq_true, decide_eq_true_eq]; omega
            · simp only [isDigitCh, Bool.and_eq_true, decide_eq_true_eq]; omega
            · simp only [isDigitCh, Bool.and_eq_true, decide_eq_true_eq]; omega
          · show digitsToNat [a, b, c] ≤ 255
            rw [digitsToNat_three]; omega
  · rintro ⟨hne, hlen, hdig, hval⟩
    have hd : ∀ c ∈ g, 48 ≤ c.toNat ∧ c.toNat ≤ 57 := by
      intro c hc
      have := hdig c hc
      simpa [isDigitCh] using this
    match g, hne, hlen, hd, hval with
    | [a], _, _, hd, hval =>
      apply RE.Matches.altR
      apply RE.Matches.altR
      have ha := hd a (by simp)
      have : RE.Matches
          (.seq (RE.opt (RE.rng 48 49)) (.seq digitCls (RE.opt digitCls)))
          ([] ++ ([a] ++ [])) := by
        refine .seq (RE.Matches.opt_iff.mpr (Or.inl rfl)) (.seq ?_ ?_)
        · exact RE.Matches.rng_iff.mpr ⟨a, rfl, ha.1, ha.2⟩
        · exact RE.Matches.opt_iff.mpr (Or.inl rfl)
      simpa using this
    | [a, b], _, _, hd, hval =>
      apply RE.Matches.altR
      apply RE.Matches.altR
      have ha := hd a (by simp)
      have hb := hd b (by simp)
      have : RE.Matches
          (.seq (RE.opt (RE.rng 48 49)) (.seq digitCls (RE.opt digitCls)))
          ([] ++ ([a] ++ [b])) := by
        refine .seq (RE.Matches.opt_iff.mpr (Or.inl rfl)) (.seq ?_ ?_)
        · exact RE.Matches.rng_iff.mpr ⟨a, rfl, ha.1, ha.2⟩
        · exact RE.Matches.opt_iff.mpr (Or.inr
            (RE.Matches.rng_iff.mpr ⟨b, rfl, hb.1, hb.2⟩))
      simpa using this
    | [a, b, c], _, _, hd, hval =>
      have ha := hd a (by simp)
      have hb := hd b (by simp)
      have hc := hd c (by simp)
      rw [digitsToNat_three] at hval
      by_cases hx : a.toNat ≤ 49
      · apply RE.Matches.altR
        apply RE.Matches.altR
        have : RE.Matches
            (.seq (RE.opt (RE.rng 48 49)) (.seq digitCls (RE.opt digitCls)))
            ([a] ++ ([b] ++ [c])) := by
          refine .seq (RE.Matches.opt_iff.mpr (Or.inr
            (RE.Matches.rng_iff.mpr ⟨a, rfl, ha.1, hx⟩))) (.seq ?_ ?_)
          · exact RE.Matches.rng_iff.mpr ⟨b, rfl, hb.1, hb.2⟩
          · exact RE.Matches.opt_iff.mpr (Or.inr
              (RE.Matches.rng_iff.mpr ⟨c, rfl, hc.1, hc.2⟩))
        simpa using this
      · have ha50 : a.toNat = 50 := by omega
        have ha2 : a = '2' := by
          have h := Char.ofNat_toNat a
          rw [ha50] at h
          exact h.symm
        subst ha2
        by_cases hy : b.toNat ≤ 52
        · apply RE.Matches.altR
          apply RE.Matches.altL
          have : RE.Matches
              (.seq (RE.chr '2') (.seq (RE.rng 48 52) digitCls))
              (['2'] ++ ([b] ++ [c])) := by
            refine .seq (RE.Matches.chr_iff.mpr rfl) (.seq ?_ ?_)
            · exact RE.Matches.rng_iff.mpr ⟨b, rfl, hb.1, hy⟩
            · exact RE.Matches.rng_iff.mpr ⟨c, rfl, hc.1, hc.2⟩
          simpa using this
        · have h2v : ('2').toNat = 50 := by decide
          rw [h2v] at hval
          have hb53 : b.toNat = 53 := by omega
          have hb5 : b = '5' := by
            have h := Char.ofNat_toNat b
            rw [hb53] at h
            exact h.symm
          subst hb5
          have h5v : ('5').toNat = 53 := by decide
          rw [h5v] at hval
          apply RE.Matches.altL
          have : RE.Matches
              (.seq (RE.chr '2') (.seq (RE.chr '5') (RE.rng 48 53)))
              (['2'] ++ (['5'] ++ [c])) := by
            refine .seq (RE.Matches.chr_iff.mpr rfl) (.seq ?_ ?_)
            · exact RE.Matches.chr_iff.mpr rfl
            · exact RE.Matches.rng_iff.mpr ⟨c, rfl, hc.1, by omega⟩
          simpa using this

/-- Structural reading of `REGEXP_IP`: a full-string match is exactly a
decomposition into four octet groups separated by literal dots. -/
theorem REGEXP_IP_iff {s : List Char} :
    RE.Matches REGEXP_IP s ↔
      ∃ g1 g2 g3 g4 : List Char,
        RE.Matches octetRE g1 ∧ RE.Matches octetRE g2 ∧
        RE.Matches octetRE g3 ∧ RE.Matches octetRE g4 ∧
        s = g1 ++ '.' :: (g2 ++ '.' :: (g3 ++ '.' :: g4)) := by
  constructor
  · intro h0
    rcases h0.seq_inv with ⟨g1, r1, rfl, h1, hA⟩
    rcases hA.seq_inv with ⟨d1, r2, rfl, hd1, hB⟩
    rw [RE.Matches.chr_iff] at hd1
    subst hd1
    rcases hB.seq_inv with ⟨g2, r3, rfl, h2, hC⟩
    rcases hC.seq_inv with ⟨d2, r4, rfl, hd2, hD⟩
    rw [RE.Matches.chr_iff] at hd2
    subst hd2
    rcases hD.seq_inv with ⟨g3, r5, rfl, h3, hE⟩
    rcases hE.seq_inv with ⟨d3, g4, rfl, hd3, h4⟩
    rw [RE.Matches.chr_iff] at hd3
    subst hd3
    exact ⟨g1, g2, g3, g4, h1, h2, h3, h4, by simp⟩
  · rintro ⟨g1, g2, g3, g4, h1, h2, h3, h4, rfl⟩
    have hdot : RE.Matches (RE.chr '.') ['.'] := RE.Matches.chr_iff.mpr rfl
    have : RE.Matches REGEXP_IP
        (g1 ++ (['.'] ++ (g2 ++ (['.'] ++ (g3 ++ (['.'] ++ g4)))))) :=
      .seq h1 (.seq hdot (.seq h2 (.seq hdot (.seq h3 (.seq hdot h4)))))
    simpa using this

/-- Structural reading of `REGEXP_PORT_RANGE`: a full-string match is
exactly `<digits>-<digits>` with both digit runs nonempty. -/
theorem REGEXP_PORT_RANGE_iff {s : List Char} :
    RE.Matches REGEXP_PORT_RANGE s ↔
      ∃ a b : List Char, a ≠ [] ∧ b ≠ [] ∧
        (∀ c ∈ a, isDigitCh c = true) ∧ (∀ c ∈ b, isDigitCh c = true) ∧
        s = a ++ '-' :: b := by
  have hcls : ∀ (c : Char),
      (decide (48 ≤ c.toNat) && decide (c.toNat ≤ 57)) = isDigitCh c := by
    intro c; rfl
  constructor
  · intro h0
    rcases h0.seq_inv with ⟨a, r1, rfl, ha, hA⟩
    rcases hA.seq_inv with ⟨d, b, rfl, hd, hb⟩
    rw [RE.Matches.chr_iff] at hd
    subst hd
    rcases RE.Matches.plus_cls_iff.mp ha with ⟨hane, haall⟩
    rcases RE.Matches.plus_cls_iff.mp hb with ⟨hbne, hball⟩
    refine ⟨a, b, hane, hbne, ?_, ?_, by simp⟩
    · intro c hc; rw [← hcls c]; exact haall c hc
    · intro c hc; rw [← hcls c]; exact hball c hc
  · rintro ⟨a, b, hane, hbne, haall, hball, rfl⟩
    have ha : RE.Matches (RE.plus (.cls fun c =>
        decide (48 ≤ c.toNat) && decide (c.toNat ≤ 57))) a :=
      RE.Matches.plus_cls_iff.mpr ⟨hane, fun c hc => (hcls c).symm ▸ haall c hc⟩
    have hb : RE.Matches (RE.plus (.cls fun c =>
        decide (48 ≤ c.toNat) && decide (c.toNat ≤ 57))) b :=
      RE.Matches.plus_cls_iff.mpr ⟨hbne, fun c hc => (hcls c).symm ▸ hball c hc⟩
    have : RE.Matches REGEXP_PORT_RANGE (a ++ (['-'] ++ b)) :=
      .seq ha (.seq (RE.Matches.chr_iff.mpr rfl) hb)
    simpa using this

/-! ### The prober `scanPort` -/

/-- The events the `net.Socket` created by `scanPort` can fire, as
observed by the three handlers `scanPort` installs: `connect` (the TCP
handshake completed before the timeout), `timeout` (the 2000 ms timer set
by `socket.setTimeout(2000)` elapsed first), `error` (a connection error
such as refused, unreachable or reset). -/
inductive SocketEvent where
  | connect : SocketEvent
  | timeout : SocketEvent
  | error : SocketEvent
deriving DecidableEq

/-- The argument of `socket.setTimeout`, in milliseconds. -/
def SCAN_TIMEOUT_MS : Nat := 2000

/-- `scanPort(host, port)`: the promise resolves `port` on `connect`,
`null` on `timeout` and on `error`; the executor's `reject` is never
called, so the `Except.error` branch of the codomain is never produced. -/
def scanPort (port : Nat) (ev : SocketEvent) : Except String (Option Nat) :=
  match ev with
  | .connect => .ok (some port)
  | .timeout => .ok none
  | .error => .ok none

/-- The value `await scanPort(host, port)` yields once the promise
settles (it always resolves; the error branch is dead code, see
`C2_scanPort_outcomes`). -/
def awaitResolved (x : Except String (Option Nat)) : Option Nat :=
  match x with
  | .ok v => v
  | .error _ => none

/-! ### The orchestrator `scanPorts` -/

/-- The test `portStatus !== null && portStatus` of the loop body:
`null` fails the first conjunct, and the number `0` is falsy in JS, so a
resolved `0` fails the second conjunct. -/
def statusTruthy (portStatus : Option Nat) : Bool :=
  match portStatus with
  | some v => v != 0
  | none => false

/-- Body of `for (let port = startPort; port <= endPort; port++)` in
`scanPorts`, iterated `n` times from `port` (the loop runs
`endPort - startPort + 1` times when `startPort ≤ endPort`, else `0`).
Each iteration calls `progressBar.tick()`, awaits `scanPort`, and pushes
the port onto `openPorts` when the result passes `statusTruthy`.
Returns (number of ticks, ports probed in order, openPorts). -/
def scanLoop (probe : Nat → Option Nat) : Nat → Nat → Nat × List Nat × List Nat
  | _, 0 => (0, [], [])
  | port, n + 1 =>
    let portStatus := probe port
    let rest := scanLoop probe (port + 1) n
    (rest.1 + 1,
     port :: rest.2.1,
     if statusTruthy portStatus then port :: rest.2.2 else rest.2.2)

/-- What one run of `scanPorts` does: the progress bar's configured
`total: endPort - startPort`, the number of `tick()` calls, the probed
ports in probe order, and the final `openPorts` list. -/
structure ScanRun where
  barTotal : Int
  ticks : Nat
  probed : List Nat
  openPorts : List Nat

/-- The probe result of port `p` under socket behaviour `ev`. -/
def probeOf (ev : Nat → SocketEvent) : Nat → Option Nat :=
  fun p => awaitResolved (scanPort p (ev p))

/-- `scanPorts(host, startPort, endPort)`, with the socket behaviour of
the host abstracted as a function from port to fired event. -/
def scanPorts (ev : Nat → SocketEvent) (startPort endPort : Nat) : ScanRun :=
  let r := scanLoop (probeOf ev) startPort (endPort + 1 - startPort)
  { barTotal := (endPort : Int) - (startPort : Int),
    ticks := r.1,
    probed := r.2.1,
    openPorts := r.2.2 }

/-- Did the probe of this port report open (the `connect` handler ran)? -/
def evOpen : SocketEvent → Bool
  | .connect => true
  | .timeout => false
  | .error => false

theorem scanLoop_ticks (probe : Nat → Option Nat) (port n : Nat) :
    (scanLoop probe port n).1 = n := by
  induction n generalizing port with
  | zero => rfl
  | succ n ih => simp [scanLoop, ih]

theorem scanLoop_probed (probe : Nat → Option Nat) (port n : Nat) :
    (scanLoop probe port n).2.1 = List.range' port n := by
  induction n generalizing port with
  | zero => rfl
  | succ n ih => simp [scanLoop, ih, List.range']

theorem scanLoop_open (probe : Nat → Option Nat) (port n : Nat) :
    (scanLoop probe port n).2.2 =
      (List.range' port n).filter (fun p => statusTruthy (probe p)) := by
  induction n generalizing port with
  | zero => rfl
  | succ n ih =>
    simp only [scanLoop, ih, List.range']
    by_cases h : statusTruthy (probe port)
    · simp [List.filter_cons, h]
    · simp [List.filter_cons, h]

theorem probeOf_truthy (ev : Nat → SocketEvent) (p : Nat) :
    statusTruthy (probeOf ev p) = (evOpen (ev p) && (p != 0)) := by
  cases h : ev p <;>
    simp [probeOf, statusTruthy, awaitResolved, scanPort, evOpen, h]

theorem scanPorts_ticks (ev : Nat → SocketEvent) (s e : Nat) :
    (scanPorts ev s e).ticks = e + 1 - s :=
  scanLoop_ticks (probeOf ev) s (e + 1 - s)

theorem scanPorts_probed (ev : Nat → SocketEvent) (s e : Nat) :
    (scanPorts ev s e).probed = List.range' s (e + 1 - s) :=
  scanLoop_probed (probeOf ev) s (e + 1 - s)

theorem scanPorts_open (ev : Nat → SocketEvent) (s e : Nat) :
    (scanPorts ev s e).openPorts =
      (List.range' s (e + 1 - s)).filter (fun p => statusTruthy (probeOf ev p)) :=
  scanLoop_open (probeOf ev) s (e + 1 - s)

/-- C1 (amended: ports ≥ 1): for 1 ≤ startPort ≤ endPort, `scanPorts`
probes every port from startPort to endPort inclusive, in strictly
ascending order (its probe trace is exactly `range' startPort
(endPort+1-startPort)`, one sequentially awaited probe per port), and the
reported `openPorts` list is exactly the ascending sublist of probed
ports whose probe fired `connect`. -/
theorem C1_scan_probes_all_and_reports_open (ev : Nat → SocketEvent)
    (startPort endPort : Nat) (h1 : 1 ≤ startPort) (h2 : startPort ≤ endPort) :
    (scanPorts ev startPort endPort).probed =
      List.range' startPort (endPort + 1 - startPort) ∧
    (scanPorts ev startPort endPort).openPorts =
      (scanPorts ev startPort endPort).probed.filter (fun p => evOpen (ev p)) := by
  refine ⟨scanPorts_probed ev startPort endPort, ?_⟩
  rw [scanPorts_open, scanPorts_probed]
  apply List.filter_congr
  intro p hp
  rw [probeOf_truthy]
  have hmem := List.mem_range'_1.mp hp
  have hz : (p != 0) = true := by
    simp only [bne_iff_ne, ne_eq]
    omega
  rw [hz, Bool.and_true]

/-- Socket behaviour over [2000,2005] in which only port 2002 accepts. -/
def ev2002 : Nat → SocketEvent :=
  fun p => if p = 2002 then SocketEvent.connect else SocketEvent.timeout

theorem C1_scan_probes_all_and_reports_open_witness :
    (1 ≤ 2000 ∧ 2000 ≤ 2005) ∧
    (scanPorts ev2002 2000 2005).probed = [2000, 2001, 2002, 2003, 2004, 2005] ∧
    (scanPorts ev2002 2000 2005).openPorts = [2002] := by
  have h := C1_scan_probes_all_and_reports_open ev2002 2000 2005
    (by decide) (by decide)
  refine ⟨⟨by decide, by decide⟩, ?_, ?_⟩
  · rw [h.1]; decide
  · rw [h.2, h.1]; decide

/-- C1 fails as literally stated at port 0: the probe of port 0 succeeds
(`scanPort` resolves the number 0), yet the reported open list of a scan
over [0,0] is empty, because `portStatus !== null && portStatus` is false
for the falsy number 0. -/
theorem C1_counterexample_port_zero :
    awaitResolved (scanPort 0 SocketEvent.connect) = some 0 ∧
    (scanPorts (fun _ => SocketEvent.connect) 0 0).openPorts = [] :=
  ⟨rfl, rfl⟩

/-- C2: one call to `scanPort` yields exactly one of the three outcomes —
it resolves `port` exactly when the socket fires `connect` (successful
connect within the timeout), and resolves `null` when it fires `timeout`
or `error` — and it always resolves (`Except.ok`): the executor never
calls `reject`, so connection-level failures never propagate as promise
rejections.  The probe timeout is the fixed 2000 ms. -/
theorem C2_scanPort_outcomes (port : Nat) (ev : SocketEvent) :
    scanPort port ev =
      Except.ok (if ev = SocketEvent.connect then some port else none) ∧
    SCAN_TIMEOUT_MS = 2000 := by
  cases ev <;> exact ⟨rfl, rfl⟩

/-- C6, code evaluated at the failing input: over [2000,2005] the loop
ticks once per probed port — 6 ticks for the 6 ports — but the progress
bar is constructed with `total: endPort - startPort`, which is 5, so the
fraction displayed after the whole scan is 6/5, not portsProbed/totalPorts. -/
theorem C6_progress_bar_total_off_by_one :
    (scanPorts (fun _ => SocketEvent.timeout) 2000 2005).ticks = 6 ∧
    (scanPorts (fun _ => SocketEvent.timeout) 2000 2005).probed.length = 6 ∧
    (scanPorts (fun _ => SocketEvent.timeout) 2000 2005).barTotal = 5 :=
  ⟨rfl, rfl, by decide⟩

/-- C9: the orchestrator records a port only when the resolved value is
non-null and truthy; the number 0 is falsy in JS, so port 0 never appears
in `openPorts` — even though `scanPort 0` resolves `0` when the
connection succeeds. -/
theorem C9_port_zero_never_reported_open :
    (∀ (ev : Nat → SocketEvent) (startPort endPort : Nat),
      (scanPorts ev startPort endPort).openPorts.all (fun p => p != 0) = true) ∧
    scanPort 0 SocketEvent.connect = Except.ok (some 0) := by
  refine ⟨?_, rfl⟩
  intro ev s e
  rw [scanPorts_open, List.all_eq_true]
  intro p hp
  rcases List.mem_filter.mp hp with ⟨_, hcond⟩
  rw [probeOf_truthy] at hcond
  simp only [Bool.and_eq_true] at hcond
  exact hcond.2

/-! ### `main` -/

/-- Network events a run of `main` can produce: one DNS lookup
(`dns.lookup(host)` inside `resolveDomain`) or one TCP probe of a
(host, port) pair (`scanPort` inside `scanPorts`). -/
inductive NetEv where
  | lookup : String → NetEv
  | probe : String → Nat → NetEv
deriving DecidableEq

/-- JS `Number` on one piece of `portrange.split('-')`; after
`isPortRangeCheck` has passed, each piece is a nonempty decimal-digit
string, on which `Number` is just the decimal value. -/
def jsNumber (s : String) : Nat := digitsToNat s.data

/-- The probe events of `scanPorts(host, ports[0], ports[1])` as invoked
by `main` after `const ports = portrange.split('-').map(Number)`. -/
def mainScanEvents (sock : String → Nat → SocketEvent) (host portrange : String) :
    List NetEv :=
  let ports := (portrange.splitOn "-").map jsNumber
  (scanPorts (sock host) (ports.getD 0 0) (ports.getD 1 0)).probed.map
    (NetEv.probe host)

/-- `main`, abstracted over the DNS resolver (`none` = lookup failed, so
`resolveDomain`'s `assert(false, '域名解析失败')` throws) and the socket
behaviour per host.  Mirrors the source: `host := ip`; when `isIpCheck`
fails, `host := await resolveDomain(host)`; then
`assert(isIpCheck(host))`, `assert(isPortRangeCheck(portrange))`, then
`scanPorts`.  A thrown assertion rejects `main`'s promise and the
`.catch` handler exits with code 1; otherwise the run exits 0.  Returns
the trace of network events in order, and the exit code. -/
def mainRun (resolver : String → Option String)
    (sock : String → Nat → SocketEvent) (ip portrange : String) :
    List NetEv × Nat :=
  if isIpCheck ip = true then
    if isPortRangeCheck portrange = true then
      (mainScanEvents sock ip portrange, 0)
    else ([], 1)
  else
    match resolver ip with
    | none => ([NetEv.lookup ip], 1)
    | some host =>
      if isIpCheck host = true then
        if isPortRangeCheck portrange = true then
          (NetEv.lookup ip :: mainScanEvents sock host portrange, 0)
        else ([NetEv.lookup ip], 1)
      else ([NetEv.lookup ip], 1)

/-- Does a trace contain any port probe? -/
def hasProbe (evs : List NetEv) : Bool :=
  evs.any (fun e => match e with | .probe _ _ => true | _ => false)

/-- Number of DNS lookups in a trace. -/
def countLookups (evs : List NetEv) : Nat :=
  (evs.filter (fun e => match e with | .lookup _ => true | _ => false)).length

theorem countLookups_mainScanEvents (sock : String → Nat → SocketEvent)
    (host portrange : String) :
    countLookups (mainScanEvents sock host portrange) = 0 := by
  simp [countLookups, mainScanEvents, List.filter_map]

/-- C5 (amended): an invalid port-range string always terminates the run
with exit code 1 and no port probe is ever attempted (the scan
orchestrator is never reached) — though, unlike the claim's wording, a
DNS lookup may already have happened, since resolution of a non-IPv4
input precedes the port-range assertion. -/
theorem C5_invalid_portrange_no_probes (resolver : String → Option String)
    (sock : String → Nat → SocketEvent) (ip portrange : String)
    (h : isPortRangeCheck portrange = false) :
    (mainRun resolver sock ip portrange).2 = 1 ∧
    hasProbe (mainRun resolver sock ip portrange).1 = false := by
  unfold mainRun
  by_cases hip : isIpCheck ip = true
  · simp [hip, h, hasProbe]
  · cases hr : resolver ip with
    | none => simp [hip, hr, hasProbe]
    | some host =>
      by_cases hh : isIpCheck host = true
      · simp [hip, hr, hh, h, hasProbe]
      · simp [hip, hr, hh, hasProbe]

theorem C5_invalid_portrange_no_probes_witness :
    isPortRangeCheck "abc" = false ∧
    ((mainRun (fun _ => none) (fun _ _ => SocketEvent.timeout)
        "1.2.3.4" "abc").2 = 1 ∧
     hasProbe (mainRun (fun _ => none) (fun _ _ => SocketEvent.timeout)
        "1.2.3.4" "abc").1 = false) :=
  ⟨by decide, C5_invalid_portrange_no_probes
    (fun _ => none) (fun _ _ => SocketEvent.timeout) "1.2.3.4" "abc" (by decide)⟩

/-- C5 fails as literally stated: with a hostname input and an invalid
port-range string, the DNS lookup happens (and only then does the
port-range assertion abort the run), so the run does not terminate
"before any DNS lookup". -/
theorem C5_counterexample_lookup_before_range_check :
    isPortRangeCheck "abc" = false ∧
    (mainRun (fun _ => some "1.2.3.4") (fun _ _ => SocketEvent.timeout)
        "example.com" "abc").1 = [NetEv.lookup "example.com"] ∧
    (mainRun (fun _ => some "1.2.3.4") (fun _ _ => SocketEvent.timeout)
        "example.com" "abc").2 = 1 := by
  refine ⟨by decide, ?_, ?_⟩ <;> decide

/-- C7: `resolveDomain` is invoked exactly once when and only when the
input fails `isIpCheck` (never retried, never called for a literal IPv4),
and when the single lookup fails the run exits 1 with no port probe
attempted. -/
theorem C7_single_resolution_and_failure_aborts
    (resolver : String → Option String) (sock : String → Nat → SocketEvent)
    (ip portrange : String) :
    (isIpCheck ip = false →
      countLookups (mainRun resolver sock ip portrange).1 = 1) ∧
    (isIpCheck ip = true →
      countLookups (mainRun resolver sock ip portrange).1 = 0) ∧
    (isIpCheck ip = false → resolver ip = none →
      (mainRun resolver sock ip portrange).2 = 1 ∧
      hasProbe (mainRun resolver sock ip portrange).1 = false) := by
  unfold mainRun
  by_cases hip : isIpCheck ip = true
  · refine ⟨fun hc => absurd hip (by simp [hc]), fun _ => ?_, fun hc => absurd hip (by simp [hc])⟩
    by_cases hpr : isPortRangeCheck portrange = true
    · simp [hip, hpr, countLookups_mainScanEvents]
    · simp [hip, hpr, countLookups]
  · cases hr : resolver ip with
    | none =>
      refine ⟨fun _ => ?_, fun hc => absurd hc hip, fun _ _ => ?_⟩
      · simp [hip, hr, countLookups]
      · simp [hip, hr, hasProbe]
    | some host =>
      refine ⟨fun _ => ?_, fun hc => absurd hc hip, fun _ hcon => ?_⟩
      · by_cases hh : isIpCheck host = true
        · by_cases hpr : isPortRangeCheck portrange = true
          · simp [hip, hr, hh, hpr, countLookups, countLookups_mainScanEvents,
              mainScanEvents]
          · simp [hip, hr, hh, hpr, countLookups]
        · simp [hip, hr, hh, countLookups]
      · simp [hr] at hcon

theorem C7_single_resolution_and_failure_aborts_witness :
    isIpCheck "nohost.invalid" = false ∧
    countLookups (mainRun (fun _ => none) (fun _ _ => SocketEvent.timeout)
      "nohost.invalid" "1-10").1 = 1 ∧
    (mainRun (fun _ => none) (fun _ _ => SocketEvent.timeout)
      "nohost.invalid" "1-10").2 = 1 ∧
    hasProbe (mainRun (fun _ => none) (fun _ _ => SocketEvent.timeout)
      "nohost.invalid" "1-10").1 = false := by
  have h := C7_single_resolution_and_failure_aborts
    (fun _ => none) (fun _ _ => SocketEvent.timeout) "nohost.invalid" "1-10"
  exact ⟨by decide, h.1 (by decide), (h.2.2 (by decide) rfl).1,
    (h.2.2 (by decide) rfl).2⟩

/-- C10: every probe event of a `main` run targets a host that passes
`isIpCheck` (the resolved address is re-checked by
`assert(isIpCheck(host))`), and when resolution returns a non-IPv4
address the run exits 1 with no probe attempted. -/
theorem C10_probes_only_validated_hosts
    (resolver : String → Option String) (sock : String → Nat → SocketEvent)
    (ip portrange : String) :
    ((mainRun resolver sock ip portrange).1.all
      (fun e => match e with
        | NetEv.probe h _ => isIpCheck h
        | NetEv.lookup _ => true)) = true ∧
    (isIpCheck ip = false → ∀ a : String, resolver ip = some a →
      isIpCheck a = false →
      (mainRun resolver sock ip portrange).2 = 1 ∧
      hasProbe (mainRun resolver sock ip portrange).1 = false) := by
  unfold mainRun
  by_cases hip : isIpCheck ip = true
  · refine ⟨?_, fun hc => absurd hip (by simp [hc])⟩
    by_cases hpr : isPortRangeCheck portrange = true
    · simp [hip, hpr, mainScanEvents, List.all_map, Function.comp, hip]
    · simp [hip, hpr]
  · cases hr : resolver ip with
    | none =>
      refine ⟨by simp [hip, hr], fun _ a ha => ?_⟩
      simp [hr] at ha
    | some host =>
      by_cases hh : isIpCheck host = true
      · refine ⟨?_, fun _ a ha hna => ?_⟩
        · by_cases hpr : isPortRangeCheck portrange = true
          · simp [hip, hr, hh, hpr, mainScanEvents, List.all_map, Function.comp]
          · simp [hip, hr, hh, hpr]
        · injection ha with ha'
          subst ha'
          exact absurd hh (by simp [hna])
      · refine ⟨by simp [hip, hr, hh], fun _ a ha hna => ?_⟩
        simp [hip, hr, hh, hasProbe]

theorem C10_probes_only_validated_hosts_witness :
    isIpCheck "nohost.example" = false ∧
    isIpCheck "::1" = false ∧
    (mainRun (fun _ => some "::1") (fun _ _ => SocketEvent.timeout)
      "nohost.example" "1-10").2 = 1 ∧
    hasProbe (mainRun (fun _ => some "::1") (fun _ _ => SocketEvent.timeout)
      "nohost.example" "1-10").1 = false := by
  have h := C10_probes_only_validated_hosts
    (fun _ => some "::1") (fun _ _ => SocketEvent.timeout) "nohost.example" "1-10"
  exact ⟨by decide, by decide, (h.2 (by decide) "::1" rfl (by decide)).1,
    (h.2 (by decide) "::1" rfl (by decide)).2⟩

/-! ### Claim-level statements about the validators -/

/-- A "decimal group" as the claim words it: a nonempty run of decimal
digits whose numeric value is in [0,255], with no bound on the number of
digits. -/
def DecGroup (g : List Char) : Prop :=
  g ≠ [] ∧ (∀ c ∈ g, isDigitCh c = true) ∧ digitsToNat g ≤ 255

/-- C3's right-hand side as stated: four dot-separated decimal groups
with values in [0,255]. -/
def FourDecGroups (s : String) : Prop :=
  ∃ g1 g2 g3 g4 : List Char,
    DecGroup g1 ∧ DecGroup g2 ∧ DecGroup g3 ∧ DecGroup g4 ∧
    s.data = g1 ++ '.' :: (g2 ++ '.' :: (g3 ++ '.' :: g4))

/-- C3 fails as stated: "0255.1.1.1" consists of four dot-separated
decimal groups whose values (255, 1, 1, 1) are all in [0,255], yet
`isIpCheck` rejects it — the regex caps each group at three digits. -/
theorem C3_counterexample_long_group :
    isIpCheck "0255.1.1.1" = false ∧ FourDecGroups "0255.1.1.1" := by
  refine ⟨by decide,
    ⟨['0', '2', '5', '5'], ['1'], ['1'], ['1'], ?_, ?_, ?_, ?_, by decide⟩⟩
  · exact ⟨by decide, by decide, by decide⟩
  · exact ⟨by decide, by decide, by decide⟩
  · exact ⟨by decide, by decide, by decide⟩
  · exact ⟨by decide, by decide, by decide⟩

/-- C3 (amended: groups limited to three digits): `isIpCheck s` is true
iff `s` is four dot-separated groups of one to three decimal digits whose
numeric values are each in [0,255]. -/
theorem C3_isIpCheck_iff_four_short_groups (s : String) :
    isIpCheck s = true ↔
      ∃ g1 g2 g3 g4 : List Char,
        GoodOctet g1 ∧ GoodOctet g2 ∧ GoodOctet g3 ∧ GoodOctet g4 ∧
        s.data = g1 ++ '.' :: (g2 ++ '.' :: (g3 ++ '.' :: g4)) := by
  unfold isIpCheck
  rw [RE.matchList_iff, REGEXP_IP_iff]
  constructor
  · rintro ⟨g1, g2, g3, g4, h1, h2, h3, h4, he⟩
    exact ⟨g1, g2, g3, g4, octetRE_iff.mp h1, octetRE_iff.mp h2,
      octetRE_iff.mp h3, octetRE_iff.mp h4, he⟩
  · rintro ⟨g1, g2, g3, g4, h1, h2, h3, h4, he⟩
    exact ⟨g1, g2, g3, g4, octetRE_iff.mpr h1, octetRE_iff.mpr h2,
      octetRE_iff.mpr h3, octetRE_iff.mpr h4, he⟩

theorem C3_isIpCheck_iff_four_short_groups_witness :
    isIpCheck "192.168.1.1" = true ∧ isIpCheck "256.1.1.1" = false ∧
    isIpCheck "1.2.3" = false :=
  ⟨(C3_isIpCheck_iff_four_short_groups "192.168.1.1").mpr
    ⟨['1', '9', '2'], ['1', '6', '8'], ['1'], ['1'],
      ⟨by decide, by decide, by decide, by decide⟩,
      ⟨by decide, by decide, by decide, by decide⟩,
      ⟨by decide, by decide, by decide, by decide⟩,
      ⟨by decide, by decide, by decide, by decide⟩, by decide⟩,
   by decide, by decide⟩

/-- C4: `isPortRangeCheck s` is true iff `s` is `<digits>-<digits>`
(both runs nonempty); the right-hand side imposes no ordering of the two
numbers and no 65535 cap, so e.g. "2-1" and "1-99999" are accepted. -/
theorem C4_isPortRangeCheck_iff_digits_dash_digits (s : String) :
    isPortRangeCheck s = true ↔
      ∃ a b : List Char, a ≠ [] ∧ b ≠ [] ∧
        (∀ c ∈ a, isDigitCh c = true) ∧ (∀ c ∈ b, isDigitCh c = true) ∧
        s.data = a ++ '-' :: b := by
  unfold isPortRangeCheck
  rw [RE.matchList_iff, REGEXP_PORT_RANGE_iff]

theorem C4_isPortRangeCheck_iff_digits_dash_digits_witness :
    isPortRangeCheck "2-1" = true ∧ isPortRangeCheck "1-99999" = true ∧
    isPortRangeCheck "1-65535" = true ∧ isPortRangeCheck "2000-2000" = true ∧
    isPortRangeCheck "abc-1" = false :=
  ⟨(C4_isPortRangeCheck_iff_digits_dash_digits "2-1").mpr
    ⟨['2'], ['1'], by decide, by decide, by decide, by decide, by decide⟩,
   by decide, by decide, by decide, by decide⟩

/-- C8: the IPv4 validator accepts leading zeros: any four dot-separated
groups of one to three digits with values in [0,255] — e.g. the group
"01" — pass `isIpCheck`. -/
theorem C8_leading_zeros_accepted (g1 g2 g3 g4 : List Char)
    (h1 : GoodOctet g1) (h2 : GoodOctet g2) (h3 : GoodOctet g3)
    (h4 : GoodOctet g4) :
    isIpCheck (String.mk (g1 ++ '.' :: (g2 ++ '.' :: (g3 ++ '.' :: g4)))) =
      true := by
  unfold isIpCheck
  rw [RE.matchList_iff]
  exact REGEXP_IP_iff.mpr ⟨g1, g2, g3, g4, octetRE_iff.mpr h1,
    octetRE_iff.mpr h2, octetRE_iff.mpr h3, octetRE_iff.mpr h4, rfl⟩

theorem C8_leading_zeros_accepted_witness :
    isIpCheck "01.2.3.4" = true :=
  C8_leading_zeros_accepted ['0', '1'] ['2'] ['3'] ['4']
    ⟨by decide, by decide, by decide, by decide⟩
    ⟨by decide, by decide, by decide, by decide⟩
    ⟨by decide, by decide, by decide, by decide⟩
    ⟨by decide, by decide, by decide, by decide⟩
